import Mathlib

/-!
Shallow embedding of the discovery-and-tracking core of the
personal-ag-usage extension: the port scanner (findListeningPorts), the
retrying HTTPS client (makeRequest), the connection cache (getConnection)
and the quota-drop usage tracker (trackUsage / getWeeklyUsage), together
with proofs about the properties stated in the design document.

Numbers: JS floating-point quota fractions are modelled as rationals,
JS millisecond timestamps as integers, ports and attempt counters as
naturals.  Stateful code (the vscode.Memento storage, the in-memory
connection cache) is modelled by explicit state passing; fallible
operations return Except.  Shell-command output is modelled as the raw
stdout text handed to the parsing code.
-/

namespace PersonalAGUsage

/-! Constants, from src/src/constants.ts. -/

def REQUEST_TIMEOUT_MS : Nat := 2500

def RETRY_DELAY_MS : Nat := 150

def MAX_RETRY_ATTEMPTS : Nat := 3

def HTTP_SUCCESS_MIN : Nat := 200

def HTTP_SUCCESS_MAX : Nat := 299

def CACHE_TTL_MS : Int := 300000

def USAGE_HISTORY_WINDOW_MS : Int := 7 * 24 * 60 * 60 * 1000

def USAGE_DETECTION_MIN_THRESHOLD : ℚ := mkRat 1 10000

def USAGE_DETECTION_MAX_THRESHOLD : ℚ := mkRat 9 10

/-! Usage tracker data model, from src/src/types.ts.  Presentation-only
fields of QuotaGroup (tierAllowed, isRecommended, tag, skills) play no
role in tracking and are omitted. -/

/-- One tracked model, as produced by getUsageData: label, remaining
quota fraction, and the reset timestamp (a string, null for unlimited
models, here Option String). -/
structure QuotaGroup where
  label : String
  rawQuota : ℚ
  resetTime : Option String
deriving DecidableEq

/-- Raw per-model quota data of the API response (both fields optional). -/
structure QuotaInfo where
  remainingFraction : Option ℚ
  resetTime : Option String
deriving DecidableEq

/-- Raw model entry of the API response (fields not used by tracking
omitted). -/
structure ModelConfig where
  label : String
  quotaInfo : Option QuotaInfo
deriving DecidableEq

/-- Mapping of a raw API model entry to a QuotaGroup, from
UsageService.getUsageData: rawQuota is quotaInfo?.remainingFraction ?? 0
and resetTime is quotaInfo?.resetTime ?? null. -/
def toQuotaGroup (m : ModelConfig) : QuotaGroup :=
  { label := m.label
    rawQuota := (m.quotaInfo.bind QuotaInfo.remainingFraction).getD 0
    resetTime := m.quotaInfo.bind QuotaInfo.resetTime }

/-- JS truthiness of the resetTime field used by the guard
`if (!m.resetTime) continue`: null and the empty string are falsy. -/
def resetTimeTruthy : Option String → Bool
  | none => false
  | some s => !s.isEmpty

/-- One persisted usage record: timestamp and inferred consumption. -/
structure HistoryEntry where
  ts : Int
  delta : ℚ
deriving DecidableEq

/-- In-flight state of the tracking loop in UsageService.trackUsage: the
lastQuotas map (label to most recent fraction) and the accumulated
totalDelta of the current cycle. -/
structure TrackState where
  lastQuotas : String → Option ℚ
  totalDelta : ℚ

/-- One iteration of the `for (const m of models)` loop of
UsageService.trackUsage: skip models without a truthy resetTime;
if a baseline exists and the fraction dropped, accumulate the drop when
it lies strictly between the two detection thresholds; always update the
baseline for tracked models. -/
def trackStep (s : TrackState) (m : QuotaGroup) : TrackState :=
  if resetTimeTruthy m.resetTime then
    let current := m.rawQuota
    let totalDelta :=
      match s.lastQuotas m.label with
      | some last =>
        if current < last then
          let diff := last - current
          if USAGE_DETECTION_MIN_THRESHOLD < diff ∧ diff < USAGE_DETECTION_MAX_THRESHOLD then
            s.totalDelta + diff
          else s.totalDelta
        else s.totalDelta
      | none => s.totalDelta
    { lastQuotas := fun l => if l = m.label then some current else s.lastQuotas l
      totalDelta := totalDelta }
  else s

/-- Result of one tracking cycle before persistence: the new history and
the new lastQuotas map. -/
structure TrackOutput where
  history : List HistoryEntry
  lastQuotas : String → Option ℚ

/-- The pure computation of UsageService.trackUsage on the loaded state:
run the loop over all models, append one aggregate entry when
totalDelta is positive, then prune entries outside the rolling window. -/
def trackUsageCompute (history : List HistoryEntry) (lastQuotas : String → Option ℚ)
    (now : Int) (models : List QuotaGroup) : TrackOutput :=
  let s := models.foldl trackStep { lastQuotas := lastQuotas, totalDelta := 0 }
  let pushed := if 0 < s.totalDelta then history ++ [{ ts := now, delta := s.totalDelta }] else history
  { history := pushed.filter fun h => now - h.ts < USAGE_HISTORY_WINDOW_MS
    lastQuotas := s.lastQuotas }

/-- UsageService.getWeeklyUsage: sum of the persisted deltas. -/
def getWeeklyUsage (history : List HistoryEntry) : ℚ :=
  history.foldl (fun sum h => sum + h.delta) 0

/-- The two persisted values behind storage keys usage_history_v1 and
last_quotas_v1. -/
structure Storage where
  history : List HistoryEntry
  lastQuotas : String → Option ℚ

/-- Whether each of the two storage.update calls of trackUsage succeeds. -/
structure WriteFlags where
  historyOk : Bool
  quotasOk : Bool

/-- Final persistent state of a trackUsage call together with its success
flag (ok = false meaning the call threw a persistence error). -/
structure PersistOutcome where
  storage : Storage
  ok : Bool

/-- UsageService.trackUsage including its two sequential awaited
storage.update calls: the history write happens first; only if it
succeeds is the lastQuotas write attempted.  A failed write leaves the
remaining writes unexecuted and surfaces as ok = false. -/
def trackUsage (w : WriteFlags) (st : Storage) (now : Int) (models : List QuotaGroup) :
    PersistOutcome :=
  let out := trackUsageCompute st.history st.lastQuotas now models
  if w.historyOk then
    if w.quotasOk then
      { storage := { history := out.history, lastQuotas := out.lastQuotas }, ok := true }
    else
      { storage := { history := out.history, lastQuotas := st.lastQuotas }, ok := false }
  else
    { storage := st, ok := false }

/-! Port scanner, from findListeningPorts (Unix path): a primary lsof
parse with Set-based deduplication, and a netstat fallback used when the
primary command errors.  The regex matching of the source is embedded as
character-level scanning (maximal-munch digit/whitespace runs coincide
with the backtracking behaviour of the source patterns because a shorter
digit run always ends at a digit and a shorter whitespace run always
ends at a whitespace character). -/

/-- Decimal digits to a number, as parseInt(m, 10) on a digit run. -/
def digitsToNat (ds : List Char) : Nat :=
  ds.foldl (fun n c => 10 * n + (c.toNat - 48)) 0

/-- The fixed text the lsof pattern requires after the port. -/
def listenLiteral : List Char := "(LISTEN)".toList

/-- One match attempt of the global pattern colon-digits-whitespace-
(LISTEN) at a position just after a colon: returns the parsed port and
the number of characters the match consumed after the colon. -/
def matchPortListen (l : List Char) : Option (Nat × Nat) :=
  let ds := l.takeWhile Char.isDigit
  let r1 := l.dropWhile Char.isDigit
  if ds.isEmpty then none
  else
    let sp := r1.takeWhile Char.isWhitespace
    let r2 := r1.dropWhile Char.isWhitespace
    if sp.isEmpty then none
    else if listenLiteral.isPrefixOf r2 then
      some (digitsToNat ds, ds.length + sp.length + listenLiteral.length)
    else none

/-- All matches of the global lsof pattern over the stdout text, in
order, resuming after each match as regex exec with the g flag does.
The fuel argument only bounds the recursion; every step consumes at
least the leading character, so fuel equal to the input length (as
supplied by lsofScan) never runs out. -/
def lsofScanAux : Nat → List Char → List Nat
  | 0, _ => []
  | _, [] => []
  | fuel + 1, c :: rest =>
    if c = ':' then
      match matchPortListen rest with
      | some (port, used) => port :: lsofScanAux fuel (rest.drop used)
      | none => lsofScanAux fuel rest
    else lsofScanAux fuel rest

/-- Entry point of the lsof pattern scan. -/
def lsofScan (l : List Char) : List Nat := lsofScanAux l.length l

/-- Insertion-order deduplication as performed by spreading a JS Set:
keeps the first occurrence of every port. -/
def jsSetInsertAll : List Nat → List Nat → List Nat
  | _, [] => []
  | seen, a :: l =>
    if a ∈ seen then jsSetInsertAll seen l else a :: jsSetInsertAll (a :: seen) l

/-- The spread new Set of the primary strategy. -/
def jsSetDedup (l : List Nat) : List Nat := jsSetInsertAll [] l

/-- JS word characters, for the word-boundary assertion of the fallback
pid pattern. -/
def wordChar (c : Char) : Bool := c.isAlphanum || c = '_'

/-- Scan for an occurrence of the pattern text preceded by a word
boundary (the pattern starts with a digit, so the boundary holds exactly
at the line start or after a non-word character). -/
def pidBoundaryScan (pat : List Char) : Bool → List Char → Bool
  | _, [] => false
  | atBoundary, c :: rest =>
    (atBoundary && pat.isPrefixOf (c :: rest)) || pidBoundaryScan pat (!wordChar c) rest

/-- The fallback per-line pid filter: the pattern backslash-b pid slash. -/
def pidPatternTest (pid : Nat) (line : List Char) : Bool :=
  pidBoundaryScan (Nat.toDigits 10 pid ++ ['/']) true line

/-- First match of the pattern colon-digits-whitespace on a line: the
port extracted by the fallback strategy. -/
def firstPortSpace : List Char → Option Nat
  | [] => none
  | c :: rest =>
    if c = ':' then
      let ds := rest.takeWhile Char.isDigit
      let r1 := rest.dropWhile Char.isDigit
      if ds.isEmpty then firstPortSpace rest
      else
        match r1 with
        | c2 :: _ => if c2.isWhitespace then some (digitsToNat ds) else firstPortSpace rest
        | [] => firstPortSpace rest
    else firstPortSpace rest

/-- Split stdout into lines, as String.split on a newline. -/
def splitNewlinesAux : List Char → List Char → List (List Char)
  | acc, [] => [acc.reverse]
  | acc, c :: rest =>
    if c = '\n' then acc.reverse :: splitNewlinesAux [] rest
    else splitNewlinesAux (c :: acc) rest

/-- Line splitting entry point. -/
def splitNewlines (l : List Char) : List (List Char) := splitNewlinesAux [] l

/-- The netstat fallback parse: for every line matching the pid pattern,
push the first colon-digits-whitespace port.  The source returns this
list directly, without the Set deduplication of the primary strategy. -/
def netstatParsePorts (pid : Nat) (stdout : List Char) : List Nat :=
  (splitNewlines stdout).filterMap fun line =>
    if pidPatternTest pid line then firstPortSpace line else none

/-- findListeningPorts on the Unix path: try lsof, and only when the
lsof command itself errors fall back to netstat; when both error, fail.
The stdout of each command is passed in as the outcome of the
corresponding executeCommand call. -/
def findListeningPorts (pid : Nat) (lsofOut netstatOut : Except String (List Char)) :
    Except String (List Nat) :=
  match lsofOut with
  | .ok stdout => .ok (jsSetDedup (lsofScan stdout))
  | .error _ =>
    match netstatOut with
    | .ok stdout => .ok (netstatParsePorts pid stdout)
    | .error e => .error ("Failed to find ports: " ++ e)

/-! API client, from makeRequest: one HTTPS attempt either yields a
response with a status code and a JSON body that parses or not, or a
transport-level error, or a timeout.  The outcome of each numbered
attempt is supplied by an oracle; the trace records the attempt numbers
made and the delays slept between them. -/

/-- Outcome of a single HTTPS attempt. -/
inductive Outcome where
  | response (code : Nat) (parseOk : Bool)
  | netError
  | timedOut
deriving DecidableEq

/-- Errors makeRequest can reject with. -/
inductive ReqError where
  | httpStatus (code : Nat)
  | network
  | requestTimeout
  | parseFailed
deriving DecidableEq

/-- Trace of one makeRequest call: the attempt numbers issued in order,
the delays slept before each retry, and the settled result. -/
structure ReqTrace where
  attempts : List Nat
  delays : List Nat
  result : Except ReqError Unit

/-- makeRequest with its retry logic: a non-2xx status is rejected,
except that a 5xx status with attempts remaining is retried after a
delay of retryDelay times the failed attempt number; transport errors
and timeouts are likewise retried with the same linear delay; a 2xx
response resolves when its body parses.  attemptNumber starts at 1 and
retries stop once it reaches maxRetries. -/
def makeRequest (oracle : Nat → Outcome) (maxRetries retryDelay attemptNumber : Nat) :
    ReqTrace :=
  match oracle attemptNumber with
  | .response code parseOk =>
    if code < HTTP_SUCCESS_MIN ∨ HTTP_SUCCESS_MAX < code then
      if h : 500 ≤ code ∧ attemptNumber < maxRetries then
        let rest := makeRequest oracle maxRetries retryDelay (attemptNumber + 1)
        { attempts := attemptNumber :: rest.attempts
          delays := retryDelay * attemptNumber :: rest.delays
          result := rest.result }
      else { attempts := [attemptNumber], delays := [], result := .error (.httpStatus code) }
    else if parseOk then { attempts := [attemptNumber], delays := [], result := .ok () }
    else { attempts := [attemptNumber], delays := [], result := .error .parseFailed }
  | .netError =>
    if h : attemptNumber < maxRetries then
      let rest := makeRequest oracle maxRetries retryDelay (attemptNumber + 1)
      { attempts := attemptNumber :: rest.attempts
        delays := retryDelay * attemptNumber :: rest.delays
        result := rest.result }
    else { attempts := [attemptNumber], delays := [], result := .error .network }
  | .timedOut =>
    if h : attemptNumber < maxRetries then
      let rest := makeRequest oracle maxRetries retryDelay (attemptNumber + 1)
      { attempts := attemptNumber :: rest.attempts
        delays := retryDelay * attemptNumber :: rest.delays
        result := rest.result }
    else { attempts := [attemptNumber], delays := [], result := .error .requestTimeout }
termination_by maxRetries - attemptNumber
decreasing_by all_goals omega

/-- An outcome the client retries on: a server-side status, a transport
error, or a timeout. -/
def retryableOutcome : Outcome → Prop
  | .response code _ => 500 ≤ code
  | .netError => True
  | .timedOut => True

/-- The result a final (non-retried) attempt settles with. -/
def outcomeResult : Outcome → Except ReqError Unit
  | .response code parseOk =>
    if code < HTTP_SUCCESS_MIN ∨ HTTP_SUCCESS_MAX < code then .error (.httpStatus code)
    else if parseOk then .ok () else .error .parseFailed
  | .netError => .error .network
  | .timedOut => .error .requestTimeout

/-! Connection cache, from UsageService.getConnection.  The surrounding
process discovery, port scan and per-port probe are supplied as an
environment; the trace records which of those operations were issued. -/

/-- A validated cached connection, from types.ts. -/
structure CachedConnection where
  port : Nat
  csrfToken : String
  timestamp : Int
deriving DecidableEq

/-- Observable operations of one getConnection call. -/
inductive ConnEvent where
  | locateProc
  | scanPorts (pid : Nat)
  | probe (port : Nat)
deriving DecidableEq

/-- Environment of one getConnection call: the current clock, the result
of findAntigravityProcess, the result of findListeningPorts per pid, and
the outcome of the validating makeRequest probe per port. -/
structure ConnEnv where
  now : Int
  locate : Except String (Nat × String)
  scan : Nat → Except String (List Nat)
  probe : Nat → Except String Unit

/-- Errors getConnection can throw. -/
inductive ConnError where
  | locateFailed (msg : String)
  | scanFailed (msg : String)
  | noPorts
  | allPortsFailed (tried : Nat) (failedPorts : List (Nat × String))
deriving DecidableEq

/-- Result of one getConnection call: the operations issued, the cache
field afterwards, and the returned connection or thrown error. -/
structure ConnResult where
  events : List ConnEvent
  cache : Option CachedConnection
  result : Except ConnError CachedConnection

/-- The sequential port-validation loop of getConnection: probe each
candidate in order, succeed on the first working port, and otherwise
collect one port-and-reason entry per failed probe. -/
def validatePorts (env : ConnEnv) (csrfToken : String) :
    List Nat → List (Nat × String) →
      List ConnEvent × Except (List (Nat × String)) CachedConnection
  | [], failed => ([], .error failed)
  | port :: rest, failed =>
    match env.probe port with
    | .ok _ =>
      ([.probe port], .ok { port := port, csrfToken := csrfToken, timestamp := env.now })
    | .error e =>
      let r := validatePorts env csrfToken rest (failed ++ [(port, e)])
      (.probe port :: r.1, r.2)

/-- The cache-miss path of getConnection: locate the process, scan its
ports, fail on an empty port list, then validate sequentially; a success
replaces the cached connection, a full failure leaves the old cache and
throws the aggregate error naming every tried port. -/
def establishFresh (env : ConnEnv) (oldCache : Option CachedConnection) : ConnResult :=
  match env.locate with
  | .error e => { events := [.locateProc], cache := oldCache, result := .error (.locateFailed e) }
  | .ok (pid, csrfToken) =>
    match env.scan pid with
    | .error e =>
      { events := [.locateProc, .scanPorts pid], cache := oldCache
        result := .error (.scanFailed e) }
    | .ok ports =>
      if ports.isEmpty then
        { events := [.locateProc, .scanPorts pid], cache := oldCache, result := .error .noPorts }
      else
        let v := validatePorts env csrfToken ports []
        match v.2 with
        | .ok conn =>
          { events := .locateProc :: .scanPorts pid :: v.1, cache := some conn
            result := .ok conn }
        | .error failed =>
          { events := .locateProc :: .scanPorts pid :: v.1, cache := oldCache
            result := .error (.allPortsFailed ports.length failed) }

/-- UsageService.getConnection: return the cached connection while it is
younger than the TTL, and establish a fresh one otherwise. -/
def getConnection (env : ConnEnv) (cached : Option CachedConnection) : ConnResult :=
  match cached with
  | some c =>
    if env.now - c.timestamp < CACHE_TTL_MS then
      { events := [], cache := some c, result := .ok c }
    else establishFresh env cached
  | none => establishFresh env cached

/-! Concrete values used to exercise the definitions on closed inputs. -/

def exResetTime : Option String := some "2026-01-20T00:00:00Z"

def exQuotaMapA : String → Option ℚ :=
  fun l => if l = "gemini-pro" then some (mkRat 4 5) else none

def exModelDrop : QuotaGroup :=
  { label := "gemini-pro", rawQuota := mkRat 3 4, resetTime := exResetTime }

def exBoundaryMap : String → Option ℚ :=
  fun l => if l = "gemini-pro" then some (mkRat 19 20) else none

def exBoundaryModel : QuotaGroup :=
  { label := "gemini-pro", rawQuota := mkRat 1 20, resetTime := exResetTime }

def exRawNoFraction : ModelConfig :=
  { label := "gemini-pro"
    quotaInfo := some { remainingFraction := none, resetTime := exResetTime } }

def exNetstatOut : List Char :=
  ("tcp 0 0 127.0.0.1:8080 0.0.0.0:* LISTEN 123/app" ++ "\n" ++
    "tcp6 0 0 :::8080 :::* LISTEN 123/app").toList

def exLsofOut : List Char :=
  ("app 123 u TCP 127.0.0.1:8080 (LISTEN)" ++ "\n" ++
    "app 123 u TCP 127.0.0.1:8080 (LISTEN)").toList

def exEnvIdle : ConnEnv :=
  { now := 1000, locate := .error "unused", scan := fun _ => .error "unused"
    probe := fun _ => .error "unused" }

def exCachedConn : CachedConnection := { port := 8080, csrfToken := "tok", timestamp := 900 }

def exEnvPorts : ConnEnv :=
  { now := 0, locate := .ok (42, "tok")
    scan := fun p => if p = 42 then .ok [4311, 4312, 4313] else .error "wrong pid"
    probe := fun p => if p = 4312 then .ok () else .error "HTTP 401" }

def exEnvAllFail : ConnEnv :=
  { now := 0, locate := .ok (42, "tok")
    scan := fun p => if p = 42 then .ok [4311, 4312, 4313] else .error "wrong pid"
    probe := fun _ => .error "HTTP 401" }

/-! Theorems. -/

/-- Claim C2: for every state of the tracking loop and every snapshot
with a truthy reset time, an existing baseline and a dropped fraction,
the drop is accumulated into totalDelta exactly when it lies strictly
between the two detection thresholds; at or outside the boundary values
it contributes nothing. -/
theorem trackUsage_threshold_filter (s : TrackState) (m : QuotaGroup) (last : ℚ)
    (hreset : resetTimeTruthy m.resetTime = true)
    (hlast : s.lastQuotas m.label = some last)
    (hdrop : m.rawQuota < last) :
    (trackStep s m).totalDelta =
      if USAGE_DETECTION_MIN_THRESHOLD < last - m.rawQuota ∧
          last - m.rawQuota < USAGE_DETECTION_MAX_THRESHOLD then
        s.totalDelta + (last - m.rawQuota)
      else s.totalDelta := by
  simp [trackStep, hreset, hlast, hdrop]

/-- Witness for trackUsage_threshold_filter at a drop of exactly the
maximum threshold (19/20 to 1/20, diff 9/10): nothing is accumulated. -/
theorem trackUsage_threshold_filter_witness :
    resetTimeTruthy exBoundaryModel.resetTime = true ∧
    ({ lastQuotas := exBoundaryMap, totalDelta := 0 } : TrackState).lastQuotas
        exBoundaryModel.label = some (mkRat 19 20) ∧
    exBoundaryModel.rawQuota < mkRat 19 20 ∧
    (trackStep { lastQuotas := exBoundaryMap, totalDelta := 0 } exBoundaryModel).totalDelta =
      if USAGE_DETECTION_MIN_THRESHOLD < mkRat 19 20 - exBoundaryModel.rawQuota ∧
          mkRat 19 20 - exBoundaryModel.rawQuota < USAGE_DETECTION_MAX_THRESHOLD then
        (0 : ℚ) + (mkRat 19 20 - exBoundaryModel.rawQuota)
      else 0 :=
  ⟨by with_unfolding_all decide, by with_unfolding_all rfl, by with_unfolding_all decide,
    trackUsage_threshold_filter { lastQuotas := exBoundaryMap, totalDelta := 0 }
      exBoundaryModel (mkRat 19 20) (by with_unfolding_all decide)
      (by with_unfolding_all rfl) (by with_unfolding_all decide)⟩

/-- Claim C8: every entry of the history produced by a tracking cycle
lies strictly inside the rolling window measured from that cycle's
clock; pruning happens on every update and is exact. -/
theorem trackUsage_prunes_window (history : List HistoryEntry)
    (lastQuotas : String → Option ℚ) (now : Int) (models : List QuotaGroup)
    (e : HistoryEntry)
    (he : e ∈ (trackUsageCompute history lastQuotas now models).history) :
    now - e.ts < USAGE_HISTORY_WINDOW_MS := by
  unfold trackUsageCompute at he
  simp only [List.mem_filter, decide_eq_true_eq] at he
  exact he.2

/-- Witness for trackUsage_prunes_window on a cycle that records one
fresh entry. -/
theorem trackUsage_prunes_window_witness :
    ({ ts := 0, delta := mkRat 1 20 } : HistoryEntry) ∈
      (trackUsageCompute [] exQuotaMapA 0 [exModelDrop]).history ∧
    (0 : Int) - ({ ts := 0, delta := mkRat 1 20 } : HistoryEntry).ts <
      USAGE_HISTORY_WINDOW_MS :=
  ⟨by with_unfolding_all decide,
    trackUsage_prunes_window [] exQuotaMapA 0 [exModelDrop] _ (by with_unfolding_all decide)⟩

/-- Claim C10: an API model entry carrying a reset time but no
remainingFraction field is mapped to quota fraction 0, so a persisted
baseline strictly between the two thresholds makes the next cycle record
a delta equal to that whole baseline. -/
theorem missing_fraction_counts_as_full_drop (m : ModelConfig) (qi : QuotaInfo)
    (s : TrackState) (last : ℚ)
    (hqi : m.quotaInfo = some qi)
    (hnofrac : qi.remainingFraction = none)
    (hreset : resetTimeTruthy qi.resetTime = true)
    (hlast : s.lastQuotas m.label = some last)
    (hmin : USAGE_DETECTION_MIN_THRESHOLD < last)
    (hmax : last < USAGE_DETECTION_MAX_THRESHOLD) :
    (trackStep s (toQuotaGroup m)).totalDelta = s.totalDelta + last := by
  have h0 : (0 : ℚ) < last := lt_trans (by with_unfolding_all decide) hmin
  simp [trackStep, toQuotaGroup, hqi, hnofrac, hreset, hlast, h0]
  intro hcon
  exact absurd hmax (not_lt.mpr (hcon hmin))

/-- Witness for missing_fraction_counts_as_full_drop with a baseline of
4/5. -/
theorem missing_fraction_counts_as_full_drop_witness :
    exRawNoFraction.quotaInfo =
      some { remainingFraction := none, resetTime := exResetTime } ∧
    ({ remainingFraction := none, resetTime := exResetTime } : QuotaInfo).remainingFraction
      = none ∧
    resetTimeTruthy ({ remainingFraction := none, resetTime := exResetTime } :
      QuotaInfo).resetTime = true ∧
    ({ lastQuotas := exQuotaMapA, totalDelta := 0 } : TrackState).lastQuotas
      exRawNoFraction.label = some (mkRat 4 5) ∧
    USAGE_DETECTION_MIN_THRESHOLD < mkRat 4 5 ∧
    mkRat 4 5 < USAGE_DETECTION_MAX_THRESHOLD ∧
    (trackStep { lastQuotas := exQuotaMapA, totalDelta := 0 }
        (toQuotaGroup exRawNoFraction)).totalDelta = (0 : ℚ) + mkRat 4 5 :=
  ⟨rfl, rfl, by with_unfolding_all decide, by with_unfolding_all rfl,
    by with_unfolding_all decide, by with_unfolding_all decide,
    missing_fraction_counts_as_full_drop exRawNoFraction
      { remainingFraction := none, resetTime := exResetTime }
      { lastQuotas := exQuotaMapA, totalDelta := 0 } (mkRat 4 5) rfl rfl
      (by with_unfolding_all decide) (by with_unfolding_all rfl)
      (by with_unfolding_all decide) (by with_unfolding_all decide)⟩

/-- Claim C7: a getConnection call finding a cached connection younger
than the TTL returns it unchanged, leaves the cache untouched, and
issues no process, scan or probe operation. -/
theorem getConnection_cache_hit (env : ConnEnv) (c : CachedConnection)
    (hfresh : env.now - c.timestamp < CACHE_TTL_MS) :
    getConnection env (some c) = { events := [], cache := some c, result := .ok c } := by
  simp [getConnection, hfresh]

/-- Witness for getConnection_cache_hit, 100 ms after establishment. -/
theorem getConnection_cache_hit_witness :
    exEnvIdle.now - exCachedConn.timestamp < CACHE_TTL_MS ∧
    getConnection exEnvIdle (some exCachedConn) =
      { events := [], cache := some exCachedConn, result := .ok exCachedConn } :=
  ⟨by decide, getConnection_cache_hit exEnvIdle exCachedConn (by decide)⟩

/-- Claim C5: on a cache miss with discovered ports A, B, C where the
probe of A fails and the probe of B succeeds, exactly A and B are
probed in that order, iteration stops, B becomes the new cached
connection, and C is never probed. -/
theorem getConnection_short_circuit (env : ConnEnv) (pid portA portB portC : Nat)
    (token reasonA : String)
    (hloc : env.locate = .ok (pid, token))
    (hscan : env.scan pid = .ok [portA, portB, portC])
    (hprobeA : env.probe portA = .error reasonA)
    (hprobeB : env.probe portB = .ok ()) :
    getConnection env none =
      { events := [.locateProc, .scanPorts pid, .probe portA, .probe portB]
        cache := some { port := portB, csrfToken := token, timestamp := env.now }
        result := .ok { port := portB, csrfToken := token, timestamp := env.now } } ∧
    (portC ≠ portA → portC ≠ portB →
      ConnEvent.probe portC ∉ (getConnection env none).events) := by
  have hmain : getConnection env none =
      { events := [.locateProc, .scanPorts pid, .probe portA, .probe portB]
        cache := some { port := portB, csrfToken := token, timestamp := env.now }
        result := .ok { port := portB, csrfToken := token, timestamp := env.now } } := by
    simp [getConnection, establishFresh, hloc, hscan, validatePorts, hprobeA, hprobeB]
  refine ⟨hmain, fun hCA hCB => ?_⟩
  rw [hmain]
  simp [hCA, hCB]

/-- Witness for getConnection_short_circuit on ports 4311, 4312, 4313
where 4311 fails with a 401 and 4312 succeeds. -/
theorem getConnection_short_circuit_witness :
    exEnvPorts.locate = .ok (42, "tok") ∧
    exEnvPorts.scan 42 = .ok [4311, 4312, 4313] ∧
    exEnvPorts.probe 4311 = .error "HTTP 401" ∧
    exEnvPorts.probe 4312 = .ok () ∧
    (getConnection exEnvPorts none =
      { events := [.locateProc, .scanPorts 42, .probe 4311, .probe 4312]
        cache := some { port := 4312, csrfToken := "tok", timestamp := 0 }
        result := .ok { port := 4312, csrfToken := "tok", timestamp := 0 } } ∧
      ((4313 : Nat) ≠ 4311 → (4313 : Nat) ≠ 4312 →
        ConnEvent.probe 4313 ∉ (getConnection exEnvPorts none).events)) :=
  ⟨rfl, rfl, rfl, rfl,
    getConnection_short_circuit exEnvPorts 42 4311 4312 4313 "tok" "HTTP 401"
      rfl rfl rfl rfl⟩

/-- The validation loop of getConnection collects, when every probe in
the candidate list fails, exactly one port-and-reason pair per candidate
in list order, appended after the already accumulated failures. -/
theorem validatePorts_all_fail (env : ConnEnv) (token : String) (reasonOf : Nat → String) :
    ∀ (ports : List Nat) (acc : List (Nat × String)),
      (∀ p ∈ ports, env.probe p = .error (reasonOf p)) →
      validatePorts env token ports acc =
        (ports.map ConnEvent.probe, .error (acc ++ ports.map fun p => (p, reasonOf p))) := by
  intro ports
  induction ports with
  | nil => intro acc _; simp [validatePorts]
  | cons p rest ih =>
    intro acc hfail
    have hp := hfail p (List.mem_cons_self p rest)
    have hrest := ih (acc ++ [(p, reasonOf p)])
      (fun q hq => hfail q (List.mem_cons_of_mem p hq))
    simp [validatePorts, hp, hrest]

/-- Claim C6: when every discovered candidate port fails its probe,
getConnection throws the aggregate error carrying exactly one
port-and-reason entry per attempted port, omitting none. -/
theorem getConnection_all_ports_failed (env : ConnEnv) (pid : Nat) (token : String)
    (ports : List Nat) (reasonOf : Nat → String)
    (hloc : env.locate = .ok (pid, token))
    (hscan : env.scan pid = .ok ports)
    (hne : ports ≠ [])
    (hfail : ∀ p ∈ ports, env.probe p = .error (reasonOf p)) :
    (getConnection env none).result =
      .error (.allPortsFailed ports.length (ports.map fun p => (p, reasonOf p))) ∧
    (ports.map fun p => (p, reasonOf p)).length = ports.length := by
  have hv := validatePorts_all_fail env token reasonOf ports [] hfail
  obtain ⟨q, rest, rfl⟩ := List.exists_cons_of_ne_nil hne
  constructor
  · simp [getConnection, establishFresh, hloc, hscan, hv]
  · simp

/-- Witness for getConnection_all_ports_failed: three candidate ports
all answering HTTP 401 produce an aggregate error with exactly three
entries. -/
theorem getConnection_all_ports_failed_witness :
    exEnvAllFail.locate = .ok (42, "tok") ∧
    exEnvAllFail.scan 42 = .ok [4311, 4312, 4313] ∧
    ([4311, 4312, 4313] : List Nat) ≠ [] ∧
    (∀ p ∈ ([4311, 4312, 4313] : List Nat),
      exEnvAllFail.probe p = .error ((fun _ => "HTTP 401") p)) ∧
    ((getConnection exEnvAllFail none).result =
      .error (.allPortsFailed 3
        [(4311, "HTTP 401"), (4312, "HTTP 401"), (4313, "HTTP 401")]) ∧
      ([(4311, "HTTP 401"), (4312, "HTTP 401"), (4313, "HTTP 401")] :
        List (Nat × String)).length = 3) :=
  ⟨rfl, rfl, by decide, fun p _ => rfl,
    getConnection_all_ports_failed exEnvAllFail 42 "tok" [4311, 4312, 4313]
      (fun _ => "HTTP 401") rfl rfl (by decide) (fun p _ => rfl)⟩

/-- Counterexample to claim C1 as stated: with an empty persisted
history, one tracked drop, a succeeding history write and a failing
last-quota-state write, the call fails (ok = false) yet the persisted
history has changed — the cycle's computation was partially applied, not
discarded. -/
theorem trackUsage_torn_persist_cex :
    (trackUsage { historyOk := true, quotasOk := false }
      { history := [], lastQuotas := exQuotaMapA } 0 [exModelDrop]).ok = false ∧
    (trackUsage { historyOk := true, quotasOk := false }
      { history := [], lastQuotas := exQuotaMapA } 0 [exModelDrop]).storage.history ≠
      ({ history := [], lastQuotas := exQuotaMapA } : Storage).history :=
  ⟨by with_unfolding_all rfl, by with_unfolding_all decide⟩

/-- Claim C1 amended: the two persistence writes of trackUsage are
sequential, not atomic.  When a write fails, a failure of the first
(history) write leaves both persisted values untouched, while a failure
of the second (last-quota-state) write leaves the new history applied
and only the last-quota-state untouched. -/
theorem trackUsage_persist_failure_extent (w : WriteFlags) (st : Storage) (now : Int)
    (models : List QuotaGroup)
    (hfail : (trackUsage w st now models).ok = false) :
    (w.historyOk = false → (trackUsage w st now models).storage = st) ∧
    (w.historyOk = true →
      (trackUsage w st now models).storage.history =
        (trackUsageCompute st.history st.lastQuotas now models).history ∧
      (trackUsage w st now models).storage.lastQuotas = st.lastQuotas) := by
  obtain ⟨hOk, qOk⟩ := w
  cases hOk <;> cases qOk <;> simp_all [trackUsage]

/-- Witness for trackUsage_persist_failure_extent at the concrete
failing-second-write input of the counterexample. -/
theorem trackUsage_persist_failure_extent_witness :
    (trackUsage { historyOk := true, quotasOk := false }
      { history := [], lastQuotas := exQuotaMapA } 0 [exModelDrop]).ok = false ∧
    ((({ historyOk := true, quotasOk := false } : WriteFlags).historyOk = false →
      (trackUsage { historyOk := true, quotasOk := false }
        { history := [], lastQuotas := exQuotaMapA } 0 [exModelDrop]).storage =
        { history := [], lastQuotas := exQuotaMapA }) ∧
    (({ historyOk := true, quotasOk := false } : WriteFlags).historyOk = true →
      (trackUsage { historyOk := true, quotasOk := false }
        { history := [], lastQuotas := exQuotaMapA } 0 [exModelDrop]).storage.history =
        (trackUsageCompute [] exQuotaMapA 0 [exModelDrop]).history ∧
      (trackUsage { historyOk := true, quotasOk := false }
        { history := [], lastQuotas := exQuotaMapA } 0 [exModelDrop]).storage.lastQuotas =
        exQuotaMapA)) :=
  ⟨by with_unfolding_all rfl,
    trackUsage_persist_failure_extent { historyOk := true, quotasOk := false }
      { history := [], lastQuotas := exQuotaMapA } 0 [exModelDrop]
      (by with_unfolding_all rfl)⟩

/-- No element produced by the Set-spread dedup was already among the
seen elements. -/
theorem jsSetInsertAll_mem :
    ∀ (l seen : List Nat) (a : Nat), a ∈ jsSetInsertAll seen l → a ∉ seen := by
  intro l
  induction l with
  | nil => intro seen a ha; simp [jsSetInsertAll] at ha
  | cons b rest ih =>
    intro seen a ha
    by_cases hb : b ∈ seen
    · exact ih seen a (by simpa [jsSetInsertAll, hb] using ha)
    · simp only [jsSetInsertAll, if_neg hb, List.mem_cons] at ha
      rcases ha with rfl | ha
      · exact hb
      · intro hseen
        exact ih (b :: seen) a ha (List.mem_cons_of_mem b hseen)

/-- The Set-spread dedup never emits an element twice. -/
theorem jsSetInsertAll_nodup : ∀ (l seen : List Nat), (jsSetInsertAll seen l).Nodup := by
  intro l
  induction l with
  | nil => intro seen; simp [jsSetInsertAll]
  | cons b rest ih =>
    intro seen
    by_cases hb : b ∈ seen
    · simpa [jsSetInsertAll, hb] using ih seen
    · simp only [jsSetInsertAll, if_neg hb, List.nodup_cons]
      exact ⟨fun hmem => (jsSetInsertAll_mem rest (b :: seen) b hmem)
        (List.mem_cons_self b seen), ih (b :: seen)⟩

/-- Counterexample to claim C3 as stated: on the netstat fallback
(primary strategy errored), a netstat table listing the same port for
the pid on an IPv4 and an IPv6 line yields a result with a duplicate
port — the fallback does not deduplicate. -/
theorem findListeningPorts_fallback_dup_cex :
    findListeningPorts 123 (.error "lsof failed") (.ok exNetstatOut) =
      .ok [8080, 8080] ∧
    ¬ ([8080, 8080] : List Nat).Nodup :=
  ⟨by with_unfolding_all rfl, by decide⟩

/-- Claim C3 amended: the primary (lsof) strategy's result never
contains duplicate ports; the netstat fallback returns the per-line
extraction verbatim and may contain duplicates. -/
theorem findListeningPorts_primary_nodup (pid : Nat) (stdout : List Char)
    (netstatOut : Except String (List Char)) (ports : List Nat)
    (h : findListeningPorts pid (.ok stdout) netstatOut = .ok ports) :
    ports.Nodup := by
  simp only [findListeningPorts, Except.ok.injEq] at h
  subst h
  exact jsSetInsertAll_nodup (lsofScan stdout) []

/-- Witness for findListeningPorts_primary_nodup: lsof output that
mentions port 8080 twice still yields the single-element set. -/
theorem findListeningPorts_primary_nodup_witness :
    findListeningPorts 123 (.ok exLsofOut) (.error "unused") = .ok [8080] ∧
    ([8080] : List Nat).Nodup :=
  ⟨by with_unfolding_all rfl,
    findListeningPorts_primary_nodup 123 exLsofOut (.error "unused") [8080]
      (by with_unfolding_all rfl)⟩

/-- When every snapshot in a cycle has a fraction at or above its
stored baseline (labels pairwise distinct, per the data model), the
tracking loop accumulates nothing. -/
theorem foldl_trackStep_no_drop :
    ∀ (models : List QuotaGroup) (s : TrackState),
      (models.map QuotaGroup.label).Nodup →
      (∀ m ∈ models, resetTimeTruthy m.resetTime = true →
        ∀ last, s.lastQuotas m.label = some last → last ≤ m.rawQuota) →
      (models.foldl trackStep s).totalDelta = s.totalDelta := by
  intro models
  induction models with
  | nil => intro s _ _; rfl
  | cons m rest ih =>
    intro s hnodup hmono
    rw [List.map_cons, List.nodup_cons] at hnodup
    simp only [List.foldl_cons]
    have hstep_total : (trackStep s m).totalDelta = s.totalDelta := by
      by_cases hr : resetTimeTruthy m.resetTime
      · cases hq : s.lastQuotas m.label with
        | none => simp [trackStep, hr, hq]
        | some last =>
          have hle := hmono m (List.mem_cons_self m rest) hr last hq
          simp [trackStep, hr, hq, not_lt.mpr hle]
      · simp [trackStep, hr]
    have hstep_map : ∀ m' ∈ rest,
        (trackStep s m).lastQuotas m'.label = s.lastQuotas m'.label := by
      intro m' hm'
      have hne : m'.label ≠ m.label := by
        intro heq
        exact hnodup.1 (heq ▸ List.mem_map_of_mem QuotaGroup.label hm')
      by_cases hr : resetTimeTruthy m.resetTime
      · simp [trackStep, hr, hne]
      · simp [trackStep, hr]
    rw [ih (trackStep s m) hnodup.2
      (fun m' hm' hr' last hlast =>
        hmono m' (List.mem_cons_of_mem m hm') hr' last ((hstep_map m' hm') ▸ hlast)),
      hstep_total]

/-- Counterexample to claim C9 as stated: a first cycle records a drop
of 1/20; a second cycle with the identical (hence non-decreasing)
snapshot set, run one rolling window later, appends nothing but prunes
the earlier entry, so the returned total changes from 1/20 to 0. -/
theorem trackUsage_idempotence_cex :
    (trackUsageCompute [] exQuotaMapA 0 [exModelDrop]).lastQuotas "gemini-pro" =
      some (mkRat 3 4) ∧
    exModelDrop.rawQuota = mkRat 3 4 ∧
    getWeeklyUsage (trackUsageCompute
        (trackUsageCompute [] exQuotaMapA 0 [exModelDrop]).history
        (trackUsageCompute [] exQuotaMapA 0 [exModelDrop]).lastQuotas
        USAGE_HISTORY_WINDOW_MS [exModelDrop]).history ≠
      getWeeklyUsage (trackUsageCompute [] exQuotaMapA 0 [exModelDrop]).history :=
  ⟨by with_unfolding_all rfl, rfl, by with_unfolding_all decide⟩

/-- Claim C9 amended: a second tracking cycle whose snapshots (with
pairwise-distinct labels) have not decreased below the stored baselines
appends no history entry, and — provided no existing entry has fallen
out of the rolling window at the second cycle's clock, as when the
second call happens at the same timestamp — leaves the history and the
returned total unchanged. -/
theorem trackUsage_nondecreasing_no_append
    (h0 : List HistoryEntry) (q0 : String → Option ℚ) (now1 now2 : Int)
    (models1 models2 : List QuotaGroup)
    (hnodup : (models2.map QuotaGroup.label).Nodup)
    (hmono : ∀ m ∈ models2, resetTimeTruthy m.resetTime = true →
      ∀ last, (trackUsageCompute h0 q0 now1 models1).lastQuotas m.label = some last →
        last ≤ m.rawQuota)
    (hfresh : ∀ e ∈ (trackUsageCompute h0 q0 now1 models1).history,
      now2 - e.ts < USAGE_HISTORY_WINDOW_MS) :
    (trackUsageCompute (trackUsageCompute h0 q0 now1 models1).history
        (trackUsageCompute h0 q0 now1 models1).lastQuotas now2 models2).history =
      (trackUsageCompute h0 q0 now1 models1).history ∧
    getWeeklyUsage (trackUsageCompute (trackUsageCompute h0 q0 now1 models1).history
        (trackUsageCompute h0 q0 now1 models1).lastQuotas now2 models2).history =
      getWeeklyUsage (trackUsageCompute h0 q0 now1 models1).history := by
  set h1 := (trackUsageCompute h0 q0 now1 models1).history with hh1
  set q1 := (trackUsageCompute h0 q0 now1 models1).lastQuotas with hq1
  have htot : (models2.foldl trackStep
      { lastQuotas := q1, totalDelta := 0 }).totalDelta = 0 :=
    foldl_trackStep_no_drop models2 _ hnodup hmono
  have hpush : (trackUsageCompute h1 q1 now2 models2).history =
      h1.filter fun e => now2 - e.ts < USAGE_HISTORY_WINDOW_MS := by
    simp [trackUsageCompute, htot]
  have hhist : (trackUsageCompute h1 q1 now2 models2).history = h1 :=
    hpush.trans (List.filter_eq_self.mpr fun e he => by simpa using hfresh e he)
  exact ⟨hhist, by rw [hhist]⟩

/-- Witness for trackUsage_nondecreasing_no_append: the same snapshot
set replayed at the same clock leaves history and total unchanged. -/
theorem trackUsage_nondecreasing_no_append_witness :
    (([exModelDrop].map QuotaGroup.label).Nodup) ∧
    (∀ m ∈ [exModelDrop], resetTimeTruthy m.resetTime = true →
      ∀ last, (trackUsageCompute [] exQuotaMapA 0 [exModelDrop]).lastQuotas m.label =
        some last → last ≤ m.rawQuota) ∧
    (∀ e ∈ (trackUsageCompute [] exQuotaMapA 0 [exModelDrop]).history,
      (0 : Int) - e.ts < USAGE_HISTORY_WINDOW_MS) ∧
    ((trackUsageCompute (trackUsageCompute [] exQuotaMapA 0 [exModelDrop]).history
        (trackUsageCompute [] exQuotaMapA 0 [exModelDrop]).lastQuotas 0 [exModelDrop]).history =
      (trackUsageCompute [] exQuotaMapA 0 [exModelDrop]).history ∧
    getWeeklyUsage (trackUsageCompute
        (trackUsageCompute [] exQuotaMapA 0 [exModelDrop]).history
        (trackUsageCompute [] exQuotaMapA 0 [exModelDrop]).lastQuotas 0 [exModelDrop]).history =
      getWeeklyUsage (trackUsageCompute [] exQuotaMapA 0 [exModelDrop]).history) := by
  have hnodup : ([exModelDrop].map QuotaGroup.label).Nodup := by simp
  have hmono : ∀ m ∈ [exModelDrop], resetTimeTruthy m.resetTime = true →
      ∀ last, (trackUsageCompute [] exQuotaMapA 0 [exModelDrop]).lastQuotas m.label =
        some last → last ≤ m.rawQuota := by
    intro m hm hr last hlast
    simp only [List.mem_singleton] at hm
    subst hm
    have hq : (trackUsageCompute [] exQuotaMapA 0 [exModelDrop]).lastQuotas
        exModelDrop.label = some (mkRat 3 4) := by with_unfolding_all rfl
    rw [hq] at hlast
    injection hlast with hl
    rw [← hl]
    exact le_of_eq rfl
  have hfresh : ∀ e ∈ (trackUsageCompute [] exQuotaMapA 0 [exModelDrop]).history,
      (0 : Int) - e.ts < USAGE_HISTORY_WINDOW_MS := by with_unfolding_all decide
  exact ⟨hnodup, hmono, hfresh,
    trackUsage_nondecreasing_no_append [] exQuotaMapA 0 0 [exModelDrop] [exModelDrop]
      hnodup hmono hfresh⟩

/-- With no attempts left, makeRequest settles the current attempt's
outcome directly. -/
theorem makeRequest_last (oracle : Nat → Outcome) (mr d a : Nat) (hmax : ¬ a < mr) :
    makeRequest oracle mr d a =
      { attempts := [a], delays := [], result := outcomeResult (oracle a) } := by
  rw [makeRequest.eq_def]
  cases h : oracle a with
  | response code pOk =>
    simp only [h, outcomeResult]
    split
    · rw [dif_neg (by tauto)]
    · split <;> rfl
  | netError =>
    simp only [h, outcomeResult]
    rw [dif_neg hmax]
  | timedOut =>
    simp only [h, outcomeResult]
    rw [dif_neg hmax]

/-- On a retryable outcome with attempts left, makeRequest sleeps the
linear delay and recurses with the next attempt number. -/
theorem makeRequest_retry (oracle : Nat → Outcome) (mr d a : Nat)
    (hretry : retryableOutcome (oracle a)) (hlt : a < mr) :
    makeRequest oracle mr d a =
      { attempts := a :: (makeRequest oracle mr d (a + 1)).attempts
        delays := d * a :: (makeRequest oracle mr d (a + 1)).delays
        result := (makeRequest oracle mr d (a + 1)).result } := by
  rw [makeRequest.eq_def]
  cases h : oracle a with
  | response code pOk =>
    have h5 : 500 ≤ code := by simpa [retryableOutcome, h] using hretry
    have hc : code < HTTP_SUCCESS_MIN ∨ HTTP_SUCCESS_MAX < code := by
      right; simp only [HTTP_SUCCESS_MAX]; omega
    simp only [h]
    rw [if_pos hc, dif_pos ⟨h5, hlt⟩]
  | netError =>
    simp only [h]
    rw [dif_pos hlt]
  | timedOut =>
    simp only [h]
    rw [dif_pos hlt]

/-- On a non-retryable outcome (a parsed or unparsed 2xx, or any status
below 500) makeRequest settles immediately, whatever attempts remain. -/
theorem makeRequest_stop (oracle : Nat → Outcome) (mr d a : Nat)
    (hnr : ¬ retryableOutcome (oracle a)) :
    makeRequest oracle mr d a =
      { attempts := [a], delays := [], result := outcomeResult (oracle a) } := by
  rw [makeRequest.eq_def]
  cases h : oracle a with
  | response code pOk =>
    have h5 : ¬ 500 ≤ code := by simpa [retryableOutcome, h] using hnr
    simp only [h, outcomeResult]
    split
    · rw [dif_neg (by tauto)]
    · split <;> rfl
  | netError => exact absurd (by simp [retryableOutcome, h]) hnr
  | timedOut => exact absurd (by simp [retryableOutcome, h]) hnr

/-- Full characterisation of one makeRequest call: attempts are
consecutively numbered from the starting attempt; every non-final
attempt had a retryable outcome and was preceded by the linear delay;
the attempt count stops at the configured maximum; the result settles
the final attempt's outcome; and the loop only stops early on a
non-retryable outcome. -/
theorem makeRequest_trace_spec (oracle : Nat → Outcome) (maxRetries retryDelay : Nat) :
    ∀ attemptNumber : Nat,
      ∃ k, 1 ≤ k ∧
        (makeRequest oracle maxRetries retryDelay attemptNumber).attempts =
          List.range' attemptNumber k ∧
        (makeRequest oracle maxRetries retryDelay attemptNumber).delays =
          (List.range' attemptNumber (k - 1)).map (fun i => retryDelay * i) ∧
        (∀ j ∈ List.range' attemptNumber (k - 1), retryableOutcome (oracle j)) ∧
        (k = 1 ∨ attemptNumber + (k - 1) ≤ maxRetries) ∧
        (makeRequest oracle maxRetries retryDelay attemptNumber).result =
          outcomeResult (oracle (attemptNumber + (k - 1))) ∧
        (attemptNumber + (k - 1) < maxRetries →
          ¬ retryableOutcome (oracle (attemptNumber + (k - 1)))) := by
  have main : ∀ (fuel a : Nat), maxRetries - a ≤ fuel →
      ∃ k, 1 ≤ k ∧
        (makeRequest oracle maxRetries retryDelay a).attempts = List.range' a k ∧
        (makeRequest oracle maxRetries retryDelay a).delays =
          (List.range' a (k - 1)).map (fun i => retryDelay * i) ∧
        (∀ j ∈ List.range' a (k - 1), retryableOutcome (oracle j)) ∧
        (k = 1 ∨ a + (k - 1) ≤ maxRetries) ∧
        (makeRequest oracle maxRetries retryDelay a).result =
          outcomeResult (oracle (a + (k - 1))) ∧
        (a + (k - 1) < maxRetries → ¬ retryableOutcome (oracle (a + (k - 1)))) := by
    intro fuel
    induction fuel with
    | zero =>
      intro a hle
      have hmax : ¬ a < maxRetries := by omega
      rw [makeRequest_last oracle maxRetries retryDelay a hmax]
      exact ⟨1, le_rfl, by simp, by simp, by simp, Or.inl rfl, by simp,
        fun hlt => absurd hlt (by omega)⟩
    | succ n ih =>
      intro a hle
      by_cases hretry : retryableOutcome (oracle a)
      · by_cases hmax : a < maxRetries
        · obtain ⟨k, hk1, ha, hd, hr, hb, hres, hstop⟩ := ih (a + 1) (by omega)
          have hk' : k - 1 + 1 = k := by omega
          have hidx : a + 1 + (k - 1) = a + (k + 1 - 1) := by omega
          refine ⟨k + 1, by omega, ?_, ?_, ?_, ?_, ?_, ?_⟩
          · rw [makeRequest_retry oracle maxRetries retryDelay a hretry hmax]
            show a :: (makeRequest oracle maxRetries retryDelay (a + 1)).attempts =
              List.range' a (k + 1)
            rw [ha, List.range'_succ a k 1]
          · rw [makeRequest_retry oracle maxRetries retryDelay a hretry hmax]
            show retryDelay * a :: (makeRequest oracle maxRetries retryDelay (a + 1)).delays =
              (List.range' a (k + 1 - 1)).map (fun i => retryDelay * i)
            rw [hd, show k + 1 - 1 = (k - 1) + 1 by omega, List.range'_succ a (k - 1) 1,
              List.map_cons]
          · intro j hj
            rw [show k + 1 - 1 = (k - 1) + 1 by omega, List.range'_succ a (k - 1) 1] at hj
            rcases List.mem_cons.mp hj with rfl | hj
            · exact hretry
            · exact hr j hj
          · right
            rcases hb with rfl | hb <;> omega
          · rw [makeRequest_retry oracle maxRetries retryDelay a hretry hmax]
            show (makeRequest oracle maxRetries retryDelay (a + 1)).result =
              outcomeResult (oracle (a + (k + 1 - 1)))
            rw [hres, hidx]
          · rw [← hidx]
            exact hstop
        · rw [makeRequest_last oracle maxRetries retryDelay a hmax]
          exact ⟨1, le_rfl, by simp, by simp, by simp, Or.inl rfl, by simp,
            fun hlt => absurd hlt (by omega)⟩
      · rw [makeRequest_stop oracle maxRetries retryDelay a hretry]
        exact ⟨1, le_rfl, by simp, by simp, by simp, Or.inl rfl, by simp,
          fun _ => by simpa using hretry⟩
  intro a
  exact main (maxRetries - a) a le_rfl

/-- Claim C4: with the default configuration, a request makes at most
MAX_RETRY_ATTEMPTS (3) consecutively numbered attempts; each retry is
preceded by a delay of retryDelay times the failed attempt's number
(linear scaling); only server-side statuses, transport errors and
timeouts are ever retried (the loop stops early only on a non-retryable
outcome); and a 4xx status settles the call immediately with that
status error. -/
theorem makeRequest_retry_policy (oracle : Nat → Outcome) (retryDelay : Nat) :
    ∃ k, 1 ≤ k ∧ k ≤ MAX_RETRY_ATTEMPTS ∧
      (makeRequest oracle MAX_RETRY_ATTEMPTS retryDelay 1).attempts = List.range' 1 k ∧
      (makeRequest oracle MAX_RETRY_ATTEMPTS retryDelay 1).delays =
        (List.range' 1 (k - 1)).map (fun i => retryDelay * i) ∧
      (∀ j ∈ List.range' 1 (k - 1), retryableOutcome (oracle j)) ∧
      (k < MAX_RETRY_ATTEMPTS → ¬ retryableOutcome (oracle k)) ∧
      (makeRequest oracle MAX_RETRY_ATTEMPTS retryDelay 1).result =
        outcomeResult (oracle k) ∧
      (∀ code parseOk, oracle k = .response code parseOk → code < 500 →
        (code < HTTP_SUCCESS_MIN ∨ HTTP_SUCCESS_MAX < code) →
        (makeRequest oracle MAX_RETRY_ATTEMPTS retryDelay 1).result =
          .error (.httpStatus code)) := by
  obtain ⟨k, hk1, ha, hd, hr, hb, hres, hstop⟩ :=
    makeRequest_trace_spec oracle MAX_RETRY_ATTEMPTS retryDelay 1
  have hidx : 1 + (k - 1) = k := by omega
  rw [hidx] at hb hres hstop
  have hk3 : k ≤ MAX_RETRY_ATTEMPTS := by
    simp only [MAX_RETRY_ATTEMPTS] at hb ⊢
    omega
  refine ⟨k, hk1, hk3, ha, hd, hr, hstop, hres, ?_⟩
  intro code pOk hcode _ hc
  rw [hres, hcode]
  simp [outcomeResult, hc]

end PersonalAGUsage
